import Mathlib

/-!
Verification of the leaderboard synchronization and reconciliation engine of
the `twleaderboard` repository.

The definitions below are a shallow embedding of the TypeScript source:

* `src/hooks/use-agent-leaderboard.ts` — the reconciliation engine
  (`mapExternalAgentToAgent`, `getRebsFullName`, `createFallbackAgentFromRebs`,
  `createPlaceholderAgent`, `mapExternalStatsToStats`, `findRebsAgent`,
  `detectRankChanges`, and the main reconciliation effect, embedded here as
  `reconcileAgents`).
* `src/hooks/use-external-leaderboard.ts` — the resilient fetch layer
  (`fetchWithRetry`, the 304 handling of `fetchLeaderboardInternal`, embedded
  here as `fetchLeaderboardInternalStep` / `pollCycle`).

Modelling conventions:
* JavaScript numbers are modelled as `Int` (the code only adds and compares).
* `string | number` identifiers are the sum type `AgentId` (JS `===` never
  equates a string with a number).
* Optional / nullable fields are `Option`; JS truthiness of a string is
  "present and non-empty" (`truthyS`), of a number "present and non-zero".
* `Array.prototype.sort` with a comparator is a stable sort; it is modelled
  with `List.insertionSort` over the "comparator ≤ 0" relation, which is
  stable in the same sense.  `localeCompare` is modelled as code-point order
  on strings.
* React state updates are modelled by explicit state passing: a reconciliation
  pass is the pure function `reconcileAgents`, and one fetch cycle of the
  polling hook is `pollCycle`.
-/

/-- A JS `string | number` identifier. `===` never equates the two shapes. -/
inductive AgentId where
  | str (s : String)
  | num (n : Int)
deriving DecidableEq, Repr

/-- JS stringification of an identifier, as used by template literals. -/
def AgentId.render : AgentId → String
  | .str s => s
  | .num n => toString n

/-- JS truthiness of an optional string: present and non-empty. -/
def truthyS : Option String → Bool
  | none => false
  | some s => !(s == "")

/-- JS `a || b || undefined` on strings: first truthy value, else `none`. -/
def jsOrS (a b : Option String) : Option String :=
  if truthyS a then a else if truthyS b then b else none

/-- JS `a || undefined` on strings: keep a truthy value, drop `null`/`""`. -/
def normS (a : Option String) : Option String :=
  if truthyS a then a else none

/-- JS `a || undefined` on numbers: keep a non-zero value. -/
def normI : Option Int → Option Int
  | none => none
  | some n => if n = 0 then none else some n

/-- `String.prototype.toLowerCase`, character by character (structural, so
that concrete instances evaluate inside the kernel). -/
def jsToLower (s : String) : String := String.mk (s.data.map Char.toLower)

/-- Strip leading and trailing whitespace from a character list. -/
def trimChars (l : List Char) : List Char :=
  ((l.dropWhile Char.isWhitespace).reverse.dropWhile Char.isWhitespace).reverse

/-- `String.prototype.trim` (structural). -/
def jsTrim (s : String) : String := String.mk (trimChars s.data)

/-- `needle` is a starting segment of the character list. -/
def charsStart : List Char → List Char → Bool
  | [], _ => true
  | _ :: _, [] => false
  | a :: as, b :: bs => a == b && charsStart as bs

/-- `s.startsWith(t)` (structural). -/
def jsStartsWith (s t : String) : Bool := charsStart t.data s.data

/-- `s.toLowerCase().trim()` as used throughout the matching code. -/
def lowTrim (s : String) : String := jsTrim (jsToLower s)

/-- Lexicographic code-point comparison of character lists ("is ≤"). -/
def charListLe : List Char → List Char → Bool
  | [], _ => true
  | _ :: _, [] => false
  | a :: as, b :: bs => if a == b then charListLe as bs else decide (a < b)

/-- `a.localeCompare(b) <= 0`, modelled as code-point order (structural). -/
def jsNameLe (a b : String) : Bool := charListLe a.data b.data

/-- `interface Agent` from `src/types/commissions.ts` (fields used by the
engine; unset optional fields default to `none`, mirroring `undefined`). -/
structure Agent where
  id : AgentId
  name : String
  email : Option String := none
  phone : Option String := none
  avatar : Option String := none
  profile_picture : Option String := none
  closed_transactions : Option Int := none
  total_value : Option Int := none
  total_commission : Option Int := none
  active_listings : Option Int := none
  rank : Option Int := none
  xp : Option Int := none
  level : Option Int := none
  position : Option String := none
  first_name : Option String := none
  last_name : Option String := none
deriving DecidableEq, Repr

/-- `interface RebsAgent` from `use-agent-leaderboard.ts` (the enrichment
record: secondary profile data). -/
structure RebsAgent where
  id : Option AgentId := none
  name : Option String := none
  first_name : Option String := none
  last_name : Option String := none
  avatar : Option String := none
  profile_picture : Option String := none
  email : Option String := none
  phone : Option String := none
  position : Option String := none
deriving DecidableEq, Repr

/-- `externalAgentSchema` from `src/types/external-api.ts`: one live
participant as validated from the upstream feed. -/
structure ExternalAgent where
  id : AgentId
  name : String
  rank : Int
  email : Option String := none
  phone : Option String := none
  avatar : Option String := none
  profile_picture : Option String := none
  closed_transactions : Int := 0
  total_value : Int := 0
  total_commission : Int := 0
  xp : Int := 0
  level : Int := 1
  active_listings : Option Int := none
  position : Option String := none
  first_name : Option String := none
  last_name : Option String := none
deriving DecidableEq, Repr

/-- `externalStatsSchema` from `src/types/external-api.ts`. -/
structure ExternalStats where
  total_agents : Int
  total_transactions : Int
  total_sales_value : Int
  total_commission : Int
  top_performer : Option ExternalAgent := none
  updated_at : String := ""
deriving DecidableEq, Repr

/-- `interface AgentStats` from `src/types/commissions.ts`. -/
structure AgentStats where
  total_agents : Int
  total_transactions : Int
  total_sales_value : Int
  total_commission : Int
  top_performer : Option Agent
deriving DecidableEq, Repr

/-- Direction of a rank movement (`'up' | 'down' | 'same'`). -/
inductive ChangeType where
  | up
  | down
  | same
deriving DecidableEq, Repr

/-- `interface LeaderboardRankChange` from `src/types/commissions.ts`. -/
structure LeaderboardRankChange where
  agentId : AgentId
  oldRank : Int
  newRank : Int
  type : ChangeType
deriving DecidableEq, Repr

/-- `MIN_VISIBLE_AGENTS` from `use-agent-leaderboard.ts`. -/
def MIN_VISIBLE_AGENTS : Nat := 10

/-- `Number.MAX_SAFE_INTEGER`, the sort key of a rank-less agent. -/
def maxSafeInteger : Int := 9007199254740991

/-- `mapExternalAgentToAgent` from `use-agent-leaderboard.ts` (lines 42-91):
maps a live participant to the internal `Agent`, consulting the enrichment
lookup only when the avatar is missing and filling only missing fields. -/
def mapExternalAgentToAgent (ext : ExternalAgent)
    (findRebs : String → Option String → Option String → Option RebsAgent) : Agent :=
  let avatar0 := jsOrS ext.avatar ext.profile_picture
  let profilePicture0 := jsOrS ext.profile_picture ext.avatar
  let email0 := normS ext.email
  let phone0 := normS ext.phone
  let position0 := normS ext.position
  let enriched :=
    if truthyS avatar0 then none
    else findRebs ext.name (normS ext.first_name) (normS ext.last_name)
  let avatar1 := match enriched with
    | some rb => jsOrS rb.avatar rb.profile_picture
    | none => avatar0
  let profilePicture1 := match enriched with
    | some rb => jsOrS rb.profile_picture rb.avatar
    | none => profilePicture0
  let email1 := match enriched with
    | some rb => if !truthyS email0 && truthyS rb.email then rb.email else email0
    | none => email0
  let phone1 := match enriched with
    | some rb => if !truthyS phone0 && truthyS rb.phone then rb.phone else phone0
    | none => phone0
  let position1 := match enriched with
    | some rb => if !truthyS position0 && truthyS rb.position then rb.position else position0
    | none => position0
  { id := ext.id
    name := ext.name
    rank := some ext.rank
    email := email1
    phone := phone1
    avatar := avatar1
    profile_picture := profilePicture1
    closed_transactions := some ext.closed_transactions
    total_value := some ext.total_value
    total_commission := some ext.total_commission
    xp := some ext.xp
    level := some ext.level
    active_listings := normI ext.active_listings
    position := position1
    first_name := normS ext.first_name
    last_name := normS ext.last_name }

/-- Combined `first_name last_name` of an enrichment record, trimmed. -/
def rebsCombinedName (a : RebsAgent) : String :=
  jsTrim ((a.first_name.getD "") ++ " " ++ (a.last_name.getD ""))

/-- `getRebsFullName` from `use-agent-leaderboard.ts` (lines 93-99). -/
def getRebsFullName (a : RebsAgent) : String :=
  match a.name.map jsTrim with
  | some t => if t == "" then rebsCombinedName a else t
  | none => rebsCombinedName a

/-- JS truthiness of an optional `string | number` id (`0` and `""` falsy). -/
def truthyId : Option AgentId → Bool
  | none => false
  | some (.num n) => !(n == 0)
  | some (.str s) => !(s == "")

/-- `baseName.toLowerCase().replace(/\s+/g, '-')`: collapse whitespace runs
into single dashes (character-level fold). -/
def collapseWsAux : Bool → List Char → List Char
  | _, [] => []
  | inRun, c :: cs =>
    if c.isWhitespace then
      if inRun then collapseWsAux true cs else '-' :: collapseWsAux true cs
    else c :: collapseWsAux false cs

/-- Whitespace-to-dash normalisation used when deriving a fallback id. -/
def collapseWhitespace (s : String) : String :=
  String.mk (collapseWsAux false s.data)

/-- `createFallbackAgentFromRebs` from `use-agent-leaderboard.ts`
(lines 101-123): converts an unmatched enrichment record into a zero-metric
placeholder whose id is derived from the record's own id (or its name). -/
def createFallbackAgentFromRebs (agent : RebsAgent) (fallbackIndex : Nat) : Agent :=
  let full := getRebsFullName agent
  let baseName := if full == "" then "Agent necunoscut " ++ toString (fallbackIndex + 1) else full
  let normalizedName := collapseWhitespace (jsToLower baseName)
  let id :=
    if truthyId agent.id then "rebs-" ++ (agent.id.getD (.str "")).render
    else "rebs-" ++ (if normalizedName == "" then toString fallbackIndex else normalizedName)
  { id := .str id
    name := baseName
    avatar := jsOrS agent.avatar agent.profile_picture
    profile_picture := jsOrS agent.profile_picture agent.avatar
    email := normS agent.email
    phone := normS agent.phone
    position := normS agent.position
    first_name := normS agent.first_name
    last_name := normS agent.last_name
    rank := none
    closed_transactions := some 0
    total_value := some 0
    total_commission := some 0
    xp := some 0
    level := some 1 }

/-- `createPlaceholderAgent` from `use-agent-leaderboard.ts` (lines 125-137):
the generic sentinel placeholder. -/
def createPlaceholderAgent (index : Nat) : Agent :=
  { id := .str ("placeholder-" ++ toString index)
    name := "Agent necunoscut " ++ toString index
    rank := none
    closed_transactions := some 0
    total_value := some 0
    total_commission := some 0
    xp := some 0
    level := some 1 }

/-- `mapExternalStatsToStats` from `use-agent-leaderboard.ts` (lines 142-164):
builds the emitted summary from the feed's stats and the final agent list. -/
def mapExternalStatsToStats (externalStats : ExternalStats) (agents : List Agent)
    (findRebs : String → Option String → Option String → Option RebsAgent) : AgentStats :=
  let total_commission := agents.foldl (fun sum a => sum + (a.total_commission.getD 0)) 0
  { total_agents := externalStats.total_agents
    total_transactions := externalStats.total_transactions
    total_sales_value := externalStats.total_sales_value
    total_commission := total_commission
    top_performer :=
      match externalStats.top_performer with
      | some tp => some (mapExternalAgentToAgent tp findRebs)
      | none => agents.head? }

/-- `findRebsAgent` from `use-agent-leaderboard.ts` (lines 318-349): name
lookup into the enrichment directory (exact full name, then first+last,
then first-name equality or full-name starts-with). -/
def findRebsAgent (rebsAgents : List RebsAgent) (agentName : String)
    (firstName lastName : Option String) : Option RebsAgent :=
  let m1 := rebsAgents.find? fun ra => ra.name.map lowTrim == some (lowTrim agentName)
  let m2 :=
    match m1 with
    | some m => some m
    | none =>
      if truthyS firstName && truthyS lastName then
        rebsAgents.find? fun ra =>
          ra.first_name.map lowTrim == firstName.map lowTrim &&
          ra.last_name.map lowTrim == lastName.map lowTrim
      else none
  match m2 with
  | some m => some m
  | none =>
    if truthyS firstName then
      rebsAgents.find? fun ra =>
        ra.first_name.map lowTrim == firstName.map lowTrim ||
        (match ra.name.map lowTrim with
         | some rn => !(rn == "") && jsStartsWith rn (lowTrim (firstName.getD ""))
         | none => false)
    else none

/-- One step of `detectRankChanges` (lines 354-382): the event, if any, that
the new agent contributes when diffed against the old list.  JS truthiness of
ranks: both must be present and non-zero. -/
def rankChangeFor (oldAgents : List Agent) (newAgent : Agent) : Option LeaderboardRankChange :=
  match oldAgents.find? fun a => a.id == newAgent.id with
  | none => none
  | some oldAgent =>
    match oldAgent.rank, newAgent.rank with
    | some ro, some rn =>
      if ro ≠ 0 ∧ rn ≠ 0 then
        if ro > rn then some ⟨newAgent.id, ro, rn, .up⟩
        else if ro < rn then some ⟨newAgent.id, ro, rn, .down⟩
        else none
      else none
    | _, _ => none

/-- `detectRankChanges` from `use-agent-leaderboard.ts` (lines 354-382):
diff the previous display list against the new one by identifier. -/
def detectRankChanges (oldAgents newAgents : List Agent) : List LeaderboardRankChange :=
  newAgents.filterMap (rankChangeFor oldAgents)

/-- Sort key of the live sort: `a.rank ?? Number.MAX_SAFE_INTEGER`. -/
def agentSortKey (a : Agent) : Int := a.rank.getD maxSafeInteger

/-- The comparator of the live sort (lines 401-408), as the "comparator ≤ 0"
relation: by rank ascending, ties by name. -/
def agentOrder (a b : Agent) : Prop :=
  agentSortKey a < agentSortKey b ∨
    (agentSortKey a = agentSortKey b ∧ jsNameLe a.name b.name = true)

instance : DecidableRel agentOrder := fun a b => by
  unfold agentOrder; infer_instance

/-- The comparator of the candidate sort (line 450), as a relation:
by full enrichment name. -/
def rebsOrder (a b : RebsAgent) : Prop :=
  jsNameLe (getRebsFullName a) (getRebsFullName b) = true

instance : DecidableRel rebsOrder := fun a b => by
  unfold rebsOrder; infer_instance

/-- `actualAgentsSorted` (lines 401-408): stable sort of the mapped live
participants by rank ascending, ties by name. -/
def actualAgentsSorted (mappedAgents : List Agent) : List Agent :=
  List.insertionSort agentOrder mappedAgents

/-- `existingNameSet` (lines 410-414): lowercased, trimmed, non-empty names
of the (sorted) live participants. -/
def existingNames (agents : List Agent) : List String :=
  (agents.map fun a => lowTrim a.name).filter fun n => !(n == "")

/-- `.map((agent, index) => createFallbackAgentFromRebs(agent, index))` with
an explicit running index. -/
def mapFallbackFrom (i : Nat) : List RebsAgent → List Agent
  | [] => []
  | a :: l => createFallbackAgentFromRebs a i :: mapFallbackFrom (i + 1) l

/-- The enrichment candidate pipeline (lines 426-433 and 444-451): filter
records with a usable name not already present among live names, sort by
full name, convert to fallback agents. -/
def rebsFallbackList (rebsAgents : List RebsAgent) (liveNames : List String) : List Agent :=
  mapFallbackFrom 0
    (List.insertionSort rebsOrder
      (rebsAgents.filter fun ra =>
        let n := lowTrim (getRebsFullName ra)
        !(n == "") && !(liveNames.contains n)))

/-- The `for (const fallback of rebsFallback) { push; if (len >= needed) break }`
loop (lines 453-456). -/
def takeUntilNeeded (needed : Nat) (acc : List Agent) : List Agent → List Agent
  | [] => acc
  | f :: rest =>
    let acc' := acc ++ [f]
    if needed ≤ acc'.length then acc' else takeUntilNeeded needed acc' rest

/-- The `while (fallbackAgents.length < needed)` placeholder loop
(lines 461-467).  Each iteration appends exactly one agent, so the loop runs
at most `needed` times; `fuel` (initialised to `needed`) makes that bound
explicit for structural recursion. -/
def fillPlaceholders (needed n : Nat) : Nat → Nat → List Agent → List Agent
  | 0, _, acc => acc
  | fuel + 1, placeholderIndex, acc =>
    if acc.length < needed then
      fillPlaceholders needed n fuel (placeholderIndex + 1)
        (acc ++ [createPlaceholderAgent (n + placeholderIndex)])
    else acc

/-- The backfill block of the reconciliation effect (lines 416-468): all REBS
agents when the live feed is empty, otherwise enrichment-backed fallbacks up
to the shortfall, topped up with generic placeholders. -/
def fallbackAgentsOf (mappedAgents : List Agent) (rebsAgents : List RebsAgent)
    (rebsAgentsLoaded : Bool) : List Agent :=
  if (actualAgentsSorted mappedAgents).length = 0 ∧
      (rebsAgentsLoaded = true ∨ 0 < rebsAgents.length) ∧ 0 < rebsAgents.length then
    rebsFallbackList rebsAgents (existingNames (actualAgentsSorted mappedAgents))
  else if (actualAgentsSorted mappedAgents).length < MIN_VISIBLE_AGENTS ∧
      (rebsAgentsLoaded = true ∨ 0 < rebsAgents.length) then
    fillPlaceholders (MIN_VISIBLE_AGENTS - (actualAgentsSorted mappedAgents).length)
      (actualAgentsSorted mappedAgents).length
      (MIN_VISIBLE_AGENTS - (actualAgentsSorted mappedAgents).length) 1
      (if 0 < rebsAgents.length then
        takeUntilNeeded (MIN_VISIBLE_AGENTS - (actualAgentsSorted mappedAgents).length) []
          (rebsFallbackList rebsAgents (existingNames (actualAgentsSorted mappedAgents)))
      else [])
  else []

/-- `.map((agent, index) => ({ ...agent, rank: index + 1 }))` (lines 470-473)
with an explicit running index. -/
def assignRanks (start : Nat) : List Agent → List Agent
  | [] => []
  | a :: l => { a with rank := some ((start : Int) + 1) } :: assignRanks (start + 1) l

/-- One reconciliation pass (the effect at lines 400-492 of
`use-agent-leaderboard.ts`): sort the live participants, backfill, and assign
contiguous ranks over the concatenation. -/
def reconcileAgents (mappedAgents : List Agent) (rebsAgents : List RebsAgent)
    (rebsAgentsLoaded : Bool) : List Agent :=
  assignRanks 0
    (actualAgentsSorted mappedAgents ++ fallbackAgentsOf mappedAgents rebsAgents rebsAgentsLoaded)

/-- The generic-placeholder tail of the backfill: what remains of the
fallback list after the enrichment-backed part (the first
`min needed candidates` entries). -/
def genericPlaceholdersOf (mappedAgents : List Agent) (rebsAgents : List RebsAgent)
    (rebsAgentsLoaded : Bool) : List Agent :=
  (fallbackAgentsOf mappedAgents rebsAgents rebsAgentsLoaded).drop
    (min (MIN_VISIBLE_AGENTS - mappedAgents.length)
      (rebsFallbackList rebsAgents (existingNames (actualAgentsSorted mappedAgents))).length)

/-!  Fetch layer: `src/hooks/use-external-leaderboard.ts`. -/

/-- `RETRY_ATTEMPTS` from `use-external-leaderboard.ts`. -/
def RETRY_ATTEMPTS : Nat := 3

/-- `RETRY_BACKOFF_BASE_MS` from `use-external-leaderboard.ts`. -/
def RETRY_BACKOFF_BASE_MS : Nat := 1000

/-- The validated upstream payload (`data` of the leaderboard response). -/
structure LeaderboardPayload where
  agents : List ExternalAgent
  stats : ExternalStats
deriving DecidableEq, Repr

/-- The parsed upstream response body (after JSON parse and schema
validation; `none` at the `data` field mirrors a missing `data`). -/
structure LBResponseBody where
  success : Bool
  data : Option LeaderboardPayload := none
  metaUpdatedAt : Option String := none
  error : Option String := none
deriving DecidableEq, Repr

/-- An HTTP response as observed by the fetch layer: status code, optional
`ETag` header, and the parsed body (`none` when the body is not valid JSON
for the schema). -/
structure HttpResponse where
  status : Nat
  etag : Option String := none
  body : Option LBResponseBody := none
deriving DecidableEq, Repr

/-- `Response.ok` of the Fetch API: status in the 2xx range. -/
def HttpResponse.ok (r : HttpResponse) : Bool :=
  decide (200 ≤ r.status) && decide (r.status < 300)

/-- The outcome of one `fetchWithTimeout` call: either the promise rejects
(network error or timeout) or a response arrives. -/
inductive FetchOutcome where
  | thrown (msg : String)
  | resp (r : HttpResponse)
deriving DecidableEq, Repr

deriving instance DecidableEq for Except

/-- Trace of one `fetchWithRetry` run: how many requests were issued, the
backoff delays awaited between attempts (in ms), and the final result
(a returned response, or the error surfaced to the caller). -/
structure RetryTrace where
  requests : Nat
  delays : List Nat
  result : Except String HttpResponse
deriving DecidableEq, Repr

/-- The loop body of `fetchWithRetry` (lines 59-85): `attempt` is the current
attempt index, `fuel` the number of attempts still allowed
(`fuel = retries - attempt`); a non-`ok` response throws and retries unless
this is the last attempt, in which case it is returned as-is; a thrown error
is rethrown on the last attempt; between attempts the loop awaits
`2^attempt * RETRY_BACKOFF_BASE_MS`. -/
def fetchWithRetryAux (outcomes : Nat → FetchOutcome) : Nat → Nat → RetryTrace
  | _, 0 => ⟨0, [], .error "Max retries exceeded"⟩
  | attempt, fuel + 1 =>
    match outcomes attempt with
    | .resp r =>
      if r.ok then ⟨1, [], .ok r⟩
      else if fuel = 0 then ⟨1, [], .ok r⟩
      else
        let t := fetchWithRetryAux outcomes (attempt + 1) fuel
        ⟨t.requests + 1, (2 ^ attempt * RETRY_BACKOFF_BASE_MS) :: t.delays, t.result⟩
    | .thrown e =>
      if fuel = 0 then ⟨1, [], .error e⟩
      else
        let t := fetchWithRetryAux outcomes (attempt + 1) fuel
        ⟨t.requests + 1, (2 ^ attempt * RETRY_BACKOFF_BASE_MS) :: t.delays, t.result⟩

/-- `fetchWithRetry` from `use-external-leaderboard.ts` (lines 59-85), as a
trace over the sequence of per-attempt outcomes. -/
def fetchWithRetry (outcomes : Nat → FetchOutcome) (retries : Nat) : RetryTrace :=
  fetchWithRetryAux outcomes 0 retries

/-- The state owned by the `useExternalLeaderboard` hook. -/
structure HookState where
  agents : List ExternalAgent
  stats : Option ExternalStats
  lastUpdated : Option String
  error : Option String
  isLoading : Bool
  lastETag : Option String
deriving DecidableEq, Repr

/-- `fetchLeaderboardInternal` from `use-external-leaderboard.ts`
(lines 116-197), given the result of its `fetchWithRetry` call: returns the
new hook state together with whether a fresh payload was committed
(`setAgents` was called).  The 304 check (lines 134-138) runs before the
`ETag` update; parse/validation failures land in the catch branch, which
keeps the existing data and only records an error message.  The proxy→direct
fallback re-invocation is modelled as a single invocation. -/
def fetchLeaderboardInternalStep (st : HookState) (now : String)
    (result : Except String HttpResponse) : HookState × Bool :=
  match result with
  | .error e => ({ st with error := some e, isLoading := false }, false)
  | .ok r =>
    if r.status = 304 then (st, false)
    else
      let st1 := match r.etag with
        | some t => { st with lastETag := some t }
        | none => st
      match r.body with
      | none => ({ st1 with error := some "Invalid API response", isLoading := false }, false)
      | some b =>
        if b.success then
          match b.data with
          | some d =>
            ({ st1 with
                agents := d.agents
                stats := some d.stats
                lastUpdated := some (b.metaUpdatedAt.getD now)
                error := none
                isLoading := false }, true)
          | none => ({ st1 with error := some "No data in API response", isLoading := false }, false)
        else ({ st1 with error := some (b.error.getD "API request failed"), isLoading := false }, false)

/-- One polling cycle end to end: run the fetch step on the retry result;
when (and only when) a fresh payload was committed, the reconciliation effect
re-runs — it maps and reconciles the new agents and diffs them against the
previous display list (lines 475-481 of `use-agent-leaderboard.ts`; the diff
is skipped while the previous list is empty).  Returns the new hook state,
the current display list, and the rank-change events of this cycle. -/
def pollCycle (st : HookState) (prevDisplay : List Agent) (rebsAgents : List RebsAgent)
    (rebsAgentsLoaded : Bool) (now : String) (result : Except String HttpResponse) :
    HookState × List Agent × List LeaderboardRankChange :=
  let step := fetchLeaderboardInternalStep st now result
  if step.2 then
    let mapped := step.1.agents.map fun a => mapExternalAgentToAgent a (findRebsAgent rebsAgents)
    let out := reconcileAgents mapped rebsAgents rebsAgentsLoaded
    (step.1, out, if 0 < prevDisplay.length then detectRankChanges prevDisplay out else [])
  else (step.1, prevDisplay, [])

/-- Modelled from the spec: "the number of distinct enrichment candidates",
where the spec defines the candidate pool as the enrichment records whose
name is not already present among live participants (case-insensitive exact
match on the full name), and "distinct" deduplicates candidates by that
name.  Used only to compare the spec's claimed output count against the
code's. -/
def specDistinctEnrichmentCandidateCount (rebsAgents : List RebsAgent)
    (liveNames : List String) : Nat :=
  (((rebsAgents.filter fun ra => !(liveNames.contains (lowTrim (getRebsFullName ra)))).map
    fun ra => lowTrim (getRebsFullName ra)).dedup).length

/-! ### Helper lemmas about the reconciliation pipeline -/

theorem length_assignRanks (l : List Agent) : ∀ s : Nat, (assignRanks s l).length = l.length := by
  induction l with
  | nil => intro s; rfl
  | cons a t ih => intro s; simp [assignRanks, ih]

theorem assignRanks_map_rank (l : List Agent) : ∀ s : Nat,
    (assignRanks s l).map (fun a => a.rank) =
      (List.range' s l.length).map (fun i => some ((i : Int) + 1)) := by
  induction l with
  | nil => intro s; rfl
  | cons a t ih => intro s; simp [assignRanks, List.range'_succ, ih]

theorem length_mapFallbackFrom (l : List RebsAgent) : ∀ i : Nat,
    (mapFallbackFrom i l).length = l.length := by
  induction l with
  | nil => intro i; rfl
  | cons a t ih => intro i; simp [mapFallbackFrom, ih]

theorem length_rebsFallbackList (rebsAgents : List RebsAgent) (liveNames : List String) :
    (rebsFallbackList rebsAgents liveNames).length =
      (rebsAgents.filter fun ra =>
        let n := lowTrim (getRebsFullName ra)
        !(n == "") && !(liveNames.contains n)).length := by
  simp [rebsFallbackList, length_mapFallbackFrom, List.length_insertionSort]

theorem takeUntilNeeded_eq (needed : Nat) : ∀ (l acc : List Agent), acc.length < needed →
    takeUntilNeeded needed acc l = acc ++ l.take (needed - acc.length) := by
  intro l
  induction l with
  | nil => intro acc _; simp [takeUntilNeeded]
  | cons f rest ih =>
    intro acc h
    show (if needed ≤ (acc ++ [f]).length then acc ++ [f]
          else takeUntilNeeded needed (acc ++ [f]) rest) = acc ++ (f :: rest).take (needed - acc.length)
    by_cases hle : needed ≤ (acc ++ [f]).length
    · rw [if_pos hle]
      have h1 : needed - acc.length = 1 := by simp at hle; omega
      rw [h1]
      simp
    · rw [if_neg hle]
      have h2 : (acc ++ [f]).length < needed := by omega
      rw [ih (acc ++ [f]) h2]
      have h3 : needed - acc.length = (needed - (acc ++ [f]).length) + 1 := by simp; omega
      rw [h3]
      simp [List.take_succ_cons]

theorem fillPlaceholders_eq (needed n : Nat) : ∀ (fuel pidx : Nat) (acc : List Agent),
    fillPlaceholders needed n fuel pidx acc =
      acc ++ (List.range (min fuel (needed - acc.length))).map
        (fun j => createPlaceholderAgent (n + pidx + j)) := by
  intro fuel
  induction fuel with
  | zero => intro pidx acc; simp [fillPlaceholders]
  | succ fuel ih =>
    intro pidx acc
    show (if acc.length < needed then
            fillPlaceholders needed n fuel (pidx + 1) (acc ++ [createPlaceholderAgent (n + pidx)])
          else acc) = _
    by_cases h : acc.length < needed
    · rw [if_pos h, ih]
      have hlen : (acc ++ [createPlaceholderAgent (n + pidx)]).length = acc.length + 1 := by simp
      rw [hlen]
      have hmin : min (fuel + 1) (needed - acc.length) =
          (min fuel (needed - (acc.length + 1))) + 1 := by omega
      rw [hmin, List.range_succ_eq_map]
      have hfun : ((List.range (min fuel (needed - (acc.length + 1)))).map Nat.succ).map
            (fun j => createPlaceholderAgent (n + pidx + j)) =
          (List.range (min fuel (needed - (acc.length + 1)))).map
            (fun j => createPlaceholderAgent (n + (pidx + 1) + j)) := by
        rw [List.map_map]
        refine List.map_congr_left ?_
        intro j _
        show createPlaceholderAgent (n + pidx + (j + 1)) = createPlaceholderAgent (n + (pidx + 1) + j)
        congr 1
        omega
      simp only [List.map_cons, ← hfun]
      simp
    · rw [if_neg h]
      have h0 : needed - acc.length = 0 := by omega
      simp [h0]

/-- C1: For every reconciliation pass (any live agent list, any enrichment
list, any previous list), the ranks of the final output list are exactly the
contiguous integers 1..N in list order, with no gaps or duplicates, where N
is the final entry count — regardless of how many entries are live versus
placeholder. -/
theorem c1_ranks_contiguous (mappedAgents : List Agent) (rebsAgents : List RebsAgent)
    (rebsAgentsLoaded : Bool) :
    (reconcileAgents mappedAgents rebsAgents rebsAgentsLoaded).map (fun a => a.rank) =
      (List.range (reconcileAgents mappedAgents rebsAgents rebsAgentsLoaded).length).map
        (fun i => some ((i : Int) + 1)) := by
  unfold reconcileAgents
  rw [assignRanks_map_rank, length_assignRanks, List.range_eq_range']

/-- Closed form of the backfill block in the normal shortfall case
(`0 < liveCount < MIN_VISIBLE_AGENTS`): the first `needed` enrichment
candidates, topped up with generic placeholders whose index is
`liveCount + position-in-the-generic-sequence`. -/
theorem fallbackAgentsOf_shortfall (mappedAgents : List Agent) (rebsAgents : List RebsAgent)
    (rebsAgentsLoaded : Bool)
    (h1 : 0 < mappedAgents.length) (h2 : mappedAgents.length < MIN_VISIBLE_AGENTS)
    (h3 : rebsAgentsLoaded = true ∨ 0 < rebsAgents.length) :
    fallbackAgentsOf mappedAgents rebsAgents rebsAgentsLoaded =
      (rebsFallbackList rebsAgents (existingNames (actualAgentsSorted mappedAgents))).take
          (MIN_VISIBLE_AGENTS - mappedAgents.length)
        ++ (List.range ((MIN_VISIBLE_AGENTS - mappedAgents.length) -
              (rebsFallbackList rebsAgents
                (existingNames (actualAgentsSorted mappedAgents))).length)).map
            (fun j => createPlaceholderAgent (mappedAgents.length + 1 + j)) := by
  have hs : (actualAgentsSorted mappedAgents).length = mappedAgents.length :=
    List.length_insertionSort _ _
  unfold fallbackAgentsOf
  rw [if_neg, if_pos]
  · set cand := rebsFallbackList rebsAgents (existingNames (actualAgentsSorted mappedAgents))
      with hcand
    have hneed1 : 1 ≤ MIN_VISIBLE_AGENTS - (actualAgentsSorted mappedAgents).length := by
      rw [hs]; omega
    have hfrom : (if 0 < rebsAgents.length then
          takeUntilNeeded (MIN_VISIBLE_AGENTS - (actualAgentsSorted mappedAgents).length) [] cand
        else []) =
        cand.take (MIN_VISIBLE_AGENTS - (actualAgentsSorted mappedAgents).length) := by
      by_cases hr : 0 < rebsAgents.length
      · rw [if_pos hr, takeUntilNeeded_eq _ _ []
          (by simp only [List.length_nil]; omega)]
        simp
      · rw [if_neg hr]
        have : rebsAgents = [] := by
          cases rebsAgents with
          | nil => rfl
          | cons a t => simp at hr
        subst this
        simp [hcand, rebsFallbackList, mapFallbackFrom]
    rw [hfrom, fillPlaceholders_eq]
    have htl : (cand.take (MIN_VISIBLE_AGENTS - (actualAgentsSorted mappedAgents).length)).length =
        min (MIN_VISIBLE_AGENTS - (actualAgentsSorted mappedAgents).length) cand.length := by
      simp
    rw [htl]
    have hcount : min (MIN_VISIBLE_AGENTS - (actualAgentsSorted mappedAgents).length)
          ((MIN_VISIBLE_AGENTS - (actualAgentsSorted mappedAgents).length) -
            min (MIN_VISIBLE_AGENTS - (actualAgentsSorted mappedAgents).length) cand.length) =
        (MIN_VISIBLE_AGENTS - (actualAgentsSorted mappedAgents).length) - cand.length := by
      omega
    rw [hcount, hs]
  · constructor
    · rw [hs]; exact h2
    · exact h3
  · rw [hs]
    intro hcon
    omega

/-- When the live feed is empty and enrichment records exist, the backfill is
all usable enrichment candidates. -/
theorem fallbackAgentsOf_empty_live (rebsAgents : List RebsAgent) (rebsAgentsLoaded : Bool)
    (hr : rebsAgents ≠ []) :
    fallbackAgentsOf [] rebsAgents rebsAgentsLoaded = rebsFallbackList rebsAgents [] := by
  have hlen : 0 < rebsAgents.length := List.length_pos.mpr hr
  unfold fallbackAgentsOf
  rw [if_pos]
  · rfl
  · exact ⟨rfl, Or.inr hlen, hlen⟩

/-- When the live feed already reaches the minimum visible count, no backfill
occurs at all. -/
theorem fallbackAgentsOf_full (mappedAgents : List Agent) (rebsAgents : List RebsAgent)
    (rebsAgentsLoaded : Bool) (h : MIN_VISIBLE_AGENTS ≤ mappedAgents.length) :
    fallbackAgentsOf mappedAgents rebsAgents rebsAgentsLoaded = [] := by
  have hs : (actualAgentsSorted mappedAgents).length = mappedAgents.length :=
    List.length_insertionSort _ _
  unfold fallbackAgentsOf
  rw [if_neg, if_neg]
  · rw [hs]
    intro hcon
    omega
  · rw [hs]
    intro hcon
    have : MIN_VISIBLE_AGENTS = 10 := rfl
    omega

/-- The final entry count is the live count plus the backfill count. -/
theorem length_reconcileAgents (mappedAgents : List Agent) (rebsAgents : List RebsAgent)
    (rebsAgentsLoaded : Bool) :
    (reconcileAgents mappedAgents rebsAgents rebsAgentsLoaded).length =
      mappedAgents.length + (fallbackAgentsOf mappedAgents rebsAgents rebsAgentsLoaded).length := by
  unfold reconcileAgents
  rw [length_assignRanks, List.length_append]
  unfold actualAgentsSorted
  rw [List.length_insertionSort]


/-- C2, counterexample: with zero live participants the output count is NOT
the number of distinct enrichment candidates.  Two enrichment records that
share the name "Ana" are one distinct candidate but produce two output
entries; a single record with no usable name is one distinct candidate per
the spec's candidate-pool definition (its empty full name is not among the
live names) but produces zero output entries. -/
theorem c2_counterexample :
    (reconcileAgents [] [{ name := some "Ana" }, { name := some "Ana" }] true).length = 2
    ∧ specDistinctEnrichmentCandidateCount [{ name := some "Ana" }, { name := some "Ana" }] [] = 1
    ∧ (reconcileAgents [] [({} : RebsAgent)] true).length = 0
    ∧ specDistinctEnrichmentCandidateCount [({} : RebsAgent)] [] = 1 := by
  refine ⟨?_, ?_, ?_, ?_⟩ <;> decide

/-- C2, amended: when enrichment data exists, a pass with `0 < liveCount`
has exactly `max liveCount MIN_VISIBLE_AGENTS` output entries (so exactly
`MIN_VISIBLE_AGENTS` when `liveCount < MIN_VISIBLE_AGENTS`); a pass with
`liveCount = 0` has one output entry per enrichment record with a non-empty
full name, counted with multiplicity. -/
theorem c2_amended (mappedAgents : List Agent) (rebsAgents : List RebsAgent)
    (rebsAgentsLoaded : Bool) (hr : rebsAgents ≠ []) :
    (mappedAgents = [] →
      (reconcileAgents mappedAgents rebsAgents rebsAgentsLoaded).length =
        (rebsAgents.filter fun ra => !(lowTrim (getRebsFullName ra) == "")).length)
    ∧ (0 < mappedAgents.length →
      (reconcileAgents mappedAgents rebsAgents rebsAgentsLoaded).length =
        max mappedAgents.length MIN_VISIBLE_AGENTS) := by
  constructor
  · intro h0
    subst h0
    rw [length_reconcileAgents, fallbackAgentsOf_empty_live rebsAgents rebsAgentsLoaded hr]
    rw [length_rebsFallbackList]
    simp only [List.length_nil, Nat.zero_add]
    congr 1
    refine List.filter_congr ?_
    intro ra _
    simp [List.contains]
  · intro hpos
    by_cases hlt : mappedAgents.length < MIN_VISIBLE_AGENTS
    · have hload : rebsAgentsLoaded = true ∨ 0 < rebsAgents.length :=
        Or.inr (List.length_pos.mpr hr)
      rw [length_reconcileAgents,
        fallbackAgentsOf_shortfall mappedAgents rebsAgents rebsAgentsLoaded hpos hlt hload]
      rw [List.length_append, List.length_take, List.length_map, List.length_range]
      omega
    · rw [length_reconcileAgents, fallbackAgentsOf_full mappedAgents rebsAgents rebsAgentsLoaded
        (by omega)]
      simp only [List.length_nil]
      omega

/-- C2, witness: a concrete pass with three live participants and one
enrichment record reaches exactly the minimum visible count. -/
theorem c2_amended_witness :
    ([({ name := some "Ana" } : RebsAgent)] ≠ []
      ∧ (0 < ([{ id := .str "L0", name := "L0", rank := some 1 },
               { id := .str "L1", name := "L1", rank := some 2 },
               { id := .str "L2", name := "L2", rank := some 3 }] : List Agent).length))
    ∧ (reconcileAgents [{ id := .str "L0", name := "L0", rank := some 1 },
        { id := .str "L1", name := "L1", rank := some 2 },
        { id := .str "L2", name := "L2", rank := some 3 }]
        [{ name := some "Ana" }] true).length =
      max ([{ id := .str "L0", name := "L0", rank := some 1 },
            { id := .str "L1", name := "L1", rank := some 2 },
            { id := .str "L2", name := "L2", rank := some 3 }] : List Agent).length
        MIN_VISIBLE_AGENTS := by
  refine ⟨⟨by decide, by decide⟩, ?_⟩
  exact (c2_amended _ _ true (by decide)).2 (by decide)

/-! ### Rank-change detection -/

theorem rankChangeFor_agentId (oldAgents : List Agent) (a : Agent)
    (c : LeaderboardRankChange) (h : rankChangeFor oldAgents a = some c) :
    c.agentId = a.id := by
  unfold rankChangeFor at h
  split at h
  · exact absurd h (by simp)
  · split at h
    · split at h
      · split at h
        · injection h with h'
          rw [← h']
        · split at h
          · injection h with h'
            rw [← h']
          · exact absurd h (by simp)
      · exact absurd h (by simp)
    · exact absurd h (by simp)

theorem detect_map_agentId_sublist (oldAgents : List Agent) (newAgents : List Agent) :
    ((detectRankChanges oldAgents newAgents).map fun c => c.agentId).Sublist
      (newAgents.map fun a => a.id) := by
  induction newAgents with
  | nil => simp [detectRankChanges]
  | cons a t ih =>
    unfold detectRankChanges
    rw [List.filterMap_cons]
    cases hf : rankChangeFor oldAgents a with
    | none =>
      simp only [List.map_cons]
      exact (ih).cons _
    | some c =>
      simp only [List.map_cons]
      rw [rankChangeFor_agentId oldAgents a c hf]
      exact (ih).cons₂ _

theorem detectRankChanges_self (l : List Agent)
    (h : (l.map fun a => a.id).Nodup) : detectRankChanges l l = [] := by
  unfold detectRankChanges
  rw [List.filterMap_eq_nil_iff]
  intro a ha
  cases hf : l.find? (fun x => x.id == a.id) with
  | none => unfold rankChangeFor; rw [hf]
  | some b =>
    have hb : b ∈ l := List.mem_of_find?_eq_some hf
    have hpred := List.find?_some hf
    have hba : b = a := List.inj_on_of_nodup_map h hb ha (by simpa using hpred)
    subst hba
    unfold rankChangeFor
    rw [hf]
    cases hr : b.rank with
    | none => simp [hr]
    | some r => simp [hr, lt_irrefl]

/-- C3: Rank-change detection emits an event exactly for each identifier
present in both the previous and the new list whose rank differs: direction
`up` when the new rank is numerically smaller than the old rank, `down` when
larger; identifiers present in only one of the two lists produce no event.
Stated for well-formed display lists (distinct identifiers, positive ranks),
which is what both reconciliation outputs are; at most one event is emitted
per identifier. -/
theorem c3_rank_change_characterization (oldAgents newAgents : List Agent)
    (hOldPos : ∀ b ∈ oldAgents, 0 < b.rank.getD 0)
    (hNewPos : ∀ a ∈ newAgents, 0 < a.rank.getD 0)
    (hOldN : (oldAgents.map fun x => x.id).Nodup)
    (hNewN : (newAgents.map fun x => x.id).Nodup) :
    (∀ c : LeaderboardRankChange,
      c ∈ detectRankChanges oldAgents newAgents ↔
        ∃ a ∈ newAgents, ∃ b ∈ oldAgents, b.id = a.id ∧ c.agentId = a.id ∧
          b.rank = some c.oldRank ∧ a.rank = some c.newRank ∧ c.oldRank ≠ c.newRank ∧
          c.type = (if c.newRank < c.oldRank then ChangeType.up else ChangeType.down))
    ∧ ((detectRankChanges oldAgents newAgents).map fun c => c.agentId).Nodup := by
  constructor
  · intro c
    constructor
    · intro hc
      obtain ⟨a, ha, hfa⟩ := List.mem_filterMap.mp hc
      unfold rankChangeFor at hfa
      cases hf : oldAgents.find? (fun x => x.id == a.id) with
      | none => rw [hf] at hfa; simp at hfa
      | some b =>
        rw [hf] at hfa
        have hbmem : b ∈ oldAgents := List.mem_of_find?_eq_some hf
        have hpred := List.find?_some hf
        have hid : b.id = a.id := by simpa using hpred
        cases hro : b.rank with
        | none => simp [hro] at hfa
        | some ro =>
          cases hrn : a.rank with
          | none => simp [hro, hrn] at hfa
          | some rn =>
            simp only [hro, hrn] at hfa
            split_ifs at hfa with h1 h2 h3
            · injection hfa with hfa'
              subst hfa'
              refine ⟨a, ha, b, hbmem, hid, rfl, hro, hrn, ?_, ?_⟩
              · show ro ≠ rn
                omega
              · show ChangeType.up = if rn < ro then ChangeType.up else ChangeType.down
                rw [if_pos (by omega)]
            · injection hfa with hfa'
              subst hfa'
              refine ⟨a, ha, b, hbmem, hid, rfl, hro, hrn, ?_, ?_⟩
              · show ro ≠ rn
                omega
              · show ChangeType.down = if rn < ro then ChangeType.up else ChangeType.down
                rw [if_neg (by omega)]
    · rintro ⟨a, ha, b, hb, hid, hcid, hro, hrn, hne, htype⟩
      apply List.mem_filterMap.mpr
      refine ⟨a, ha, ?_⟩
      have hsome : (oldAgents.find? (fun x => x.id == a.id)).isSome :=
        List.find?_isSome.mpr ⟨b, hb, by simp [hid]⟩
      obtain ⟨b', hf⟩ := Option.isSome_iff_exists.mp hsome
      have hb'mem : b' ∈ oldAgents := List.mem_of_find?_eq_some hf
      have hpred := List.find?_some hf
      have hid' : b'.id = a.id := by simpa using hpred
      have hbb : b' = b := List.inj_on_of_nodup_map hOldN hb'mem hb (by rw [hid', hid])
      subst hbb
      have hro0 : 0 < c.oldRank := by
        have hp := hOldPos b' hb'mem
        rw [hro] at hp
        simpa using hp
      have hrn0 : 0 < c.newRank := by
        have hp := hNewPos a ha
        rw [hrn] at hp
        simpa using hp
      unfold rankChangeFor
      rw [hf]
      simp only [hro, hrn]
      rw [if_pos ⟨by omega, by omega⟩]
      by_cases hgt : c.oldRank > c.newRank
      · rw [if_pos hgt]
        have hc : c = ⟨a.id, c.oldRank, c.newRank, ChangeType.up⟩ := by
          rw [if_pos (by omega)] at htype
          cases c
          simp_all
        rw [← hc]
      · rw [if_neg hgt, if_pos (by omega)]
        have hc : c = ⟨a.id, c.oldRank, c.newRank, ChangeType.down⟩ := by
          rw [if_neg (by omega)] at htype
          cases c
          simp_all
        rw [← hc]
  · exact List.Nodup.sublist (detect_map_agentId_sublist oldAgents newAgents) hNewN

/-- The spec's concrete diff example: previous list. -/
def exOldList : List Agent :=
  [{ id := .str "A", name := "A", rank := some 1 },
   { id := .str "B", name := "B", rank := some 2 }]

/-- The spec's concrete diff example: new list. -/
def exNewList : List Agent :=
  [{ id := .str "B", name := "B", rank := some 1 },
   { id := .str "A", name := "A", rank := some 2 }]

/-- C3, witness: on the spec's concrete example the engine emits exactly the
two events `B: 2→1 (up)` and `A: 1→2 (down)`, and the characterization
theorem applies.  -/
theorem c3_rank_change_witness :
    ((∀ b ∈ exOldList, 0 < b.rank.getD 0) ∧ (∀ a ∈ exNewList, 0 < a.rank.getD 0)
      ∧ ((exOldList.map fun x => x.id).Nodup) ∧ ((exNewList.map fun x => x.id).Nodup))
    ∧ detectRankChanges exOldList exNewList =
        [{ agentId := .str "B", oldRank := 2, newRank := 1, type := .up },
         { agentId := .str "A", oldRank := 1, newRank := 2, type := .down }]
    ∧ ((∀ c : LeaderboardRankChange,
          c ∈ detectRankChanges exOldList exNewList ↔
            ∃ a ∈ exNewList, ∃ b ∈ exOldList, b.id = a.id ∧ c.agentId = a.id ∧
              b.rank = some c.oldRank ∧ a.rank = some c.newRank ∧ c.oldRank ≠ c.newRank ∧
              c.type = (if c.newRank < c.oldRank then ChangeType.up else ChangeType.down))
        ∧ ((detectRankChanges exOldList exNewList).map fun c => c.agentId).Nodup) :=
  ⟨⟨by decide, by decide, by decide, by decide⟩, by decide,
    c3_rank_change_characterization exOldList exNewList
      (by decide) (by decide) (by decide) (by decide)⟩

/-- C4, counterexample: reconciliation is NOT idempotent for every live
payload.  With a payload containing two agents that share the identifier
"X", the second pass (diffing the first pass's output against the identical
second output) emits a spurious `down` event, because the id lookup always
finds the first entry with that identifier. -/
theorem c4_counterexample :
    detectRankChanges
        (reconcileAgents [{ id := .str "X", name := "A", rank := some 1 },
                          { id := .str "X", name := "B", rank := some 2 }] [] false)
        (reconcileAgents [{ id := .str "X", name := "A", rank := some 1 },
                          { id := .str "X", name := "B", rank := some 2 }] [] false) =
      [{ agentId := .str "X", oldRank := 1, newRank := 2, type := .down }]
    ∧ detectRankChanges
        (reconcileAgents [{ id := .str "X", name := "A", rank := some 1 },
                          { id := .str "X", name := "B", rank := some 2 }] [] false)
        (reconcileAgents [{ id := .str "X", name := "A", rank := some 1 },
                          { id := .str "X", name := "B", rank := some 2 }] [] false) ≠ [] := by
  refine ⟨by decide, by decide⟩

/-- C4, amended: running the reconciliation pass twice in a row on the same
live payload and the same enrichment set (the second pass diffing against
the first pass's output) produces zero rank-change events on the second
pass, provided the reconciled output carries pairwise-distinct identifiers
(as is the case whenever the live payload's identifiers are distinct and do
not collide with backfill identifiers). -/
theorem c4_idempotent (mappedAgents : List Agent) (rebsAgents : List RebsAgent)
    (rebsAgentsLoaded : Bool)
    (h : ((reconcileAgents mappedAgents rebsAgents rebsAgentsLoaded).map fun a => a.id).Nodup) :
    detectRankChanges (reconcileAgents mappedAgents rebsAgents rebsAgentsLoaded)
      (reconcileAgents mappedAgents rebsAgents rebsAgentsLoaded) = [] :=
  detectRankChanges_self _ h

/-- C4, witness: a concrete two-agent payload with distinct identifiers
yields no events when the pass output is diffed against itself. -/
theorem c4_idempotent_witness :
    ((reconcileAgents [{ id := .str "A", name := "A", rank := some 1 },
                       { id := .str "B", name := "B", rank := some 2 }] [] false).map
        fun a => a.id).Nodup
    ∧ detectRankChanges
        (reconcileAgents [{ id := .str "A", name := "A", rank := some 1 },
                          { id := .str "B", name := "B", rank := some 2 }] [] false)
        (reconcileAgents [{ id := .str "A", name := "A", rank := some 1 },
                          { id := .str "B", name := "B", rank := some 2 }] [] false) = [] :=
  ⟨by decide, c4_idempotent _ _ _ (by decide)⟩

/-! ### Summary computation -/

theorem foldl_add_commission (l : List Agent) : ∀ s : Int,
    l.foldl (fun sum a => sum + a.total_commission.getD 0) s =
      s + (l.map fun a => a.total_commission.getD 0).sum := by
  induction l with
  | nil => intro s; simp
  | cons a t ih =>
    intro s
    simp only [List.foldl_cons, List.map_cons, List.sum_cons, ih]
    omega

theorem head?_assignRanks_rank (l : List Agent) (a : Agent)
    (h : (assignRanks 0 l).head? = some a) : a.rank = some 1 := by
  cases l with
  | nil => simp [assignRanks] at h
  | cons x t =>
    simp only [assignRanks, List.head?_cons, Option.some.injEq] at h
    rw [← h]
    simp

/-- The live-feed portion used by the C5 counterexample: a designated top
performer in the upstream summary who is not the rank-1 entry of the final
list. -/
def tpExtC5 : ExternalAgent := { id := .num 5, name := "Zed", rank := 3 }

/-- Upstream summary whose totals disagree with the final display list. -/
def esC5 : ExternalStats :=
  { total_agents := 99, total_transactions := 7, total_sales_value := 1000,
    total_commission := 5, top_performer := some tpExtC5, updated_at := "t" }

/-- The single live participant of the C5 counterexample pass. -/
def agC5 : Agent := { id := .str "a1", name := "Ana", rank := some 1, total_commission := some 42 }

/-- C5, counterexample: the emitted summary's participant count and
closed-deal count are NOT recomputed over the final Display Entry list (the
feed says 99 agents and 7 deals, the final list has 1 entry with 0 deals),
and the designated top performer is NOT the rank-1 entry of the final list
(it is the feed's own `top_performer`). -/
theorem c5_counterexample :
    (mapExternalStatsToStats esC5 (reconcileAgents [agC5] [] false)
        (findRebsAgent [])).total_agents ≠
      ((reconcileAgents [agC5] [] false).length : Int)
    ∧ (mapExternalStatsToStats esC5 (reconcileAgents [agC5] [] false)
        (findRebsAgent [])).total_transactions ≠
      ((reconcileAgents [agC5] [] false).map fun a => a.closed_transactions.getD 0).sum
    ∧ (mapExternalStatsToStats esC5 (reconcileAgents [agC5] [] false)
        (findRebsAgent [])).top_performer ≠
      (reconcileAgents [agC5] [] false).head? := by
  refine ⟨by decide, by decide, by decide⟩

/-- C5, amended: only the summary's total commission is recomputed (as the
sum over the final Display Entry list); the participant count, closed-deal
count and total value are taken verbatim from the live feed's summary; the
designated top performer is the feed's own top performer (enriched) when
present, otherwise the rank-1 head of the final list. -/
theorem c5_amended (externalStats : ExternalStats) (mappedAgents : List Agent)
    (rebsAgents : List RebsAgent) (rebsAgentsLoaded : Bool)
    (findRebs : String → Option String → Option String → Option RebsAgent) :
    (mapExternalStatsToStats externalStats
        (reconcileAgents mappedAgents rebsAgents rebsAgentsLoaded) findRebs).total_commission =
      ((reconcileAgents mappedAgents rebsAgents rebsAgentsLoaded).map
        fun a => a.total_commission.getD 0).sum
    ∧ (mapExternalStatsToStats externalStats
        (reconcileAgents mappedAgents rebsAgents rebsAgentsLoaded) findRebs).total_agents =
      externalStats.total_agents
    ∧ (mapExternalStatsToStats externalStats
        (reconcileAgents mappedAgents rebsAgents rebsAgentsLoaded) findRebs).total_transactions =
      externalStats.total_transactions
    ∧ (mapExternalStatsToStats externalStats
        (reconcileAgents mappedAgents rebsAgents rebsAgentsLoaded) findRebs).total_sales_value =
      externalStats.total_sales_value
    ∧ (∀ tp, externalStats.top_performer = some tp →
        (mapExternalStatsToStats externalStats
            (reconcileAgents mappedAgents rebsAgents rebsAgentsLoaded) findRebs).top_performer =
          some (mapExternalAgentToAgent tp findRebs))
    ∧ (externalStats.top_performer = none →
        ∀ a, (reconcileAgents mappedAgents rebsAgents rebsAgentsLoaded).head? = some a →
          (mapExternalStatsToStats externalStats
              (reconcileAgents mappedAgents rebsAgents rebsAgentsLoaded) findRebs).top_performer =
            some a ∧ a.rank = some 1) := by
  refine ⟨?_, rfl, rfl, rfl, ?_, ?_⟩
  · show List.foldl _ 0 _ = _
    rw [foldl_add_commission]
    omega
  · intro tp htp
    show (match externalStats.top_performer with
      | some tp => some (mapExternalAgentToAgent tp findRebs)
      | none => (reconcileAgents mappedAgents rebsAgents rebsAgentsLoaded).head?) = _
    rw [htp]
  · intro htp a ha
    constructor
    · show (match externalStats.top_performer with
        | some tp => some (mapExternalAgentToAgent tp findRebs)
        | none => (reconcileAgents mappedAgents rebsAgents rebsAgentsLoaded).head?) = _
      rw [htp]
      exact ha
    · exact head?_assignRanks_rank _ a ha

/-- C5, witness: on the concrete counterexample inputs the amended claim
evaluates as stated — the feed's own top performer is the one emitted. -/
theorem c5_amended_witness :
    esC5.top_performer = some tpExtC5
    ∧ (mapExternalStatsToStats esC5 (reconcileAgents [agC5] [] false)
        (findRebsAgent [])).top_performer =
      some (mapExternalAgentToAgent tpExtC5 (findRebsAgent [])) :=
  ⟨rfl, (c5_amended esC5 [agC5] [] false (findRebsAgent [])).2.2.2.2.1 tpExtC5 rfl⟩

/-- Closed form of the generic-placeholder tail of the backfill. -/
theorem genericPlaceholdersOf_eq (mappedAgents : List Agent) (rebsAgents : List RebsAgent)
    (rebsAgentsLoaded : Bool)
    (h1 : 0 < mappedAgents.length) (h2 : mappedAgents.length < MIN_VISIBLE_AGENTS)
    (h3 : rebsAgentsLoaded = true ∨ 0 < rebsAgents.length) :
    genericPlaceholdersOf mappedAgents rebsAgents rebsAgentsLoaded =
      (List.range ((MIN_VISIBLE_AGENTS - mappedAgents.length) -
          (rebsFallbackList rebsAgents
            (existingNames (actualAgentsSorted mappedAgents))).length)).map
        (fun j => createPlaceholderAgent (mappedAgents.length + 1 + j)) := by
  unfold genericPlaceholdersOf
  rw [fallbackAgentsOf_shortfall mappedAgents rebsAgents rebsAgentsLoaded h1 h2 h3]
  have hmin : min (MIN_VISIBLE_AGENTS - mappedAgents.length)
      (rebsFallbackList rebsAgents (existingNames (actualAgentsSorted mappedAgents))).length =
      ((rebsFallbackList rebsAgents (existingNames (actualAgentsSorted mappedAgents))).take
        (MIN_VISIBLE_AGENTS - mappedAgents.length)).length := by
    simp
  rw [hmin, List.drop_left]

/-- C6: Generic placeholder entries (those generated after enrichment
candidates are exhausted) carry the sentinel name `Agent necunoscut k` and
the identifier `placeholder-k` with `k = liveCount + 1 + position in the
generic backfill sequence` — a function of the live count (equivalently, of
the unchanged shortfall) and of the position in the generic backfill
sequence only, not of the overall list index (it is independent of how many
enrichment-backed entries precede).  Hence two passes with the same live
count produce identical placeholder identifiers at every generic
position. -/
theorem c6_generic_placeholder_stability (mappedAgents : List Agent)
    (rebsAgents : List RebsAgent) (rebsAgentsLoaded : Bool)
    (h1 : 0 < mappedAgents.length) (h2 : mappedAgents.length < MIN_VISIBLE_AGENTS)
    (h3 : rebsAgentsLoaded = true ∨ 0 < rebsAgents.length) :
    genericPlaceholdersOf mappedAgents rebsAgents rebsAgentsLoaded =
      (List.range ((MIN_VISIBLE_AGENTS - mappedAgents.length) -
          (rebsFallbackList rebsAgents
            (existingNames (actualAgentsSorted mappedAgents))).length)).map
        (fun j => createPlaceholderAgent (mappedAgents.length + 1 + j))
    ∧ (∀ k, (createPlaceholderAgent k).name = "Agent necunoscut " ++ toString k
        ∧ (createPlaceholderAgent k).id = .str ("placeholder-" ++ toString k))
    ∧ (∀ (mapped' : List Agent) (rebs' : List RebsAgent) (loaded' : Bool),
        0 < mapped'.length → mapped'.length < MIN_VISIBLE_AGENTS →
        (loaded' = true ∨ 0 < rebs'.length) →
        mapped'.length = mappedAgents.length →
        ∀ (j : Nat) (a a' : Agent),
          (genericPlaceholdersOf mappedAgents rebsAgents rebsAgentsLoaded)[j]? = some a →
          (genericPlaceholdersOf mapped' rebs' loaded')[j]? = some a' →
          a.id = a'.id ∧ a.name = a'.name) := by
  refine ⟨genericPlaceholdersOf_eq _ _ _ h1 h2 h3, fun k => ⟨rfl, rfl⟩, ?_⟩
  intro mapped' rebs' loaded' h1' h2' h3' hlen j a a' hja hja'
  rw [genericPlaceholdersOf_eq _ _ _ h1 h2 h3] at hja
  rw [genericPlaceholdersOf_eq _ _ _ h1' h2' h3'] at hja'
  obtain ⟨hjl, hget⟩ := List.getElem?_eq_some_iff.mp hja
  obtain ⟨hjl', hget'⟩ := List.getElem?_eq_some_iff.mp hja'
  simp only [List.getElem_map, List.getElem_range] at hget hget'
  rw [← hget, ← hget', hlen]
  exact ⟨rfl, rfl⟩

/-- Concrete live list for the C6 witness: three ranked live agents. -/
def liveC6 : List Agent :=
  [{ id := .str "L0", name := "L0", rank := some 1 },
   { id := .str "L1", name := "L1", rank := some 2 },
   { id := .str "L2", name := "L2", rank := some 3 }]

/-- Concrete enrichment list for the C6 witness: a single usable record. -/
def rebsC6 : List RebsAgent := [{ name := some "Ana" }]

/-- C6, witness: on a concrete pass with three live agents and one
enrichment candidate, the generic tail is exactly the closed form. -/
theorem c6_witness :
    (0 < liveC6.length ∧ liveC6.length < MIN_VISIBLE_AGENTS)
    ∧ genericPlaceholdersOf liveC6 rebsC6 true =
      (List.range ((MIN_VISIBLE_AGENTS - liveC6.length) -
          (rebsFallbackList rebsC6 (existingNames (actualAgentsSorted liveC6))).length)).map
        (fun j => createPlaceholderAgent (liveC6.length + 1 + j)) :=
  ⟨⟨by decide, by decide⟩,
    (c6_generic_placeholder_stability liveC6 rebsC6 true (by decide) (by decide) (Or.inl rfl)).1⟩

/-! ### Enrichment of live participants -/

theorem truthyS_normS (a : Option String) : truthyS (normS a) = truthyS a := by
  unfold normS
  by_cases h : truthyS a = true
  · rw [if_pos h]
  · have h' : truthyS a = false := by simpa using h
    rw [if_neg h, h']
    rfl

theorem normS_of_truthy (a : Option String) (h : truthyS a = true) : normS a = a := by
  unfold normS
  rw [if_pos h]

theorem jsOrS_of_truthy_left (a b : Option String) (h : truthyS a = true) : jsOrS a b = a := by
  unfold jsOrS
  rw [if_pos h]

theorem truthyS_jsOrS (a b : Option String) :
    truthyS (jsOrS a b) = (truthyS a || truthyS b) := by
  unfold jsOrS
  by_cases ha : truthyS a = true
  · rw [if_pos ha, ha, Bool.true_or]
  · have ha' : truthyS a = false := by simpa using ha
    rw [if_neg ha, ha', Bool.false_or]
    by_cases hb : truthyS b = true
    · rw [if_pos hb]
    · have hb' : truthyS b = false := by simpa using hb
      rw [if_neg hb, hb']
      rfl

/-- C7: For every live participant whose avatar/contact fields are empty,
enrichment fills only the missing fields (avatar, profile picture, email,
phone, position) from a matching enrichment record, and never overwrites a
field value already present in the live participant. -/
theorem c7_enrichment_preserves_live_fields (ext : ExternalAgent)
    (findRebs : String → Option String → Option String → Option RebsAgent) :
    (truthyS ext.email = true → (mapExternalAgentToAgent ext findRebs).email = ext.email)
    ∧ (truthyS ext.phone = true → (mapExternalAgentToAgent ext findRebs).phone = ext.phone)
    ∧ (truthyS ext.position = true →
        (mapExternalAgentToAgent ext findRebs).position = ext.position)
    ∧ (truthyS ext.avatar = true → (mapExternalAgentToAgent ext findRebs).avatar = ext.avatar)
    ∧ (truthyS ext.profile_picture = true →
        (mapExternalAgentToAgent ext findRebs).profile_picture = ext.profile_picture)
    ∧ (truthyS ext.avatar = false → truthyS ext.profile_picture = false →
        ∀ rb, findRebs ext.name (normS ext.first_name) (normS ext.last_name) = some rb →
          (mapExternalAgentToAgent ext findRebs).avatar = jsOrS rb.avatar rb.profile_picture
          ∧ (mapExternalAgentToAgent ext findRebs).profile_picture =
              jsOrS rb.profile_picture rb.avatar
          ∧ (truthyS ext.email = false → truthyS rb.email = true →
              (mapExternalAgentToAgent ext findRebs).email = rb.email)
          ∧ (truthyS ext.phone = false → truthyS rb.phone = true →
              (mapExternalAgentToAgent ext findRebs).phone = rb.phone)
          ∧ (truthyS ext.position = false → truthyS rb.position = true →
              (mapExternalAgentToAgent ext findRebs).position = rb.position)) := by
  by_cases hav : truthyS (jsOrS ext.avatar ext.profile_picture) = true
  · refine ⟨?_, ?_, ?_, ?_, ?_, ?_⟩
    · intro h
      simp only [mapExternalAgentToAgent, hav, if_true, normS_of_truthy _ h]
    · intro h
      simp only [mapExternalAgentToAgent, hav, if_true, normS_of_truthy _ h]
    · intro h
      simp only [mapExternalAgentToAgent, hav, if_true, normS_of_truthy _ h]
    · intro h
      simp only [mapExternalAgentToAgent, hav, if_true]
      exact jsOrS_of_truthy_left _ _ h
    · intro h
      simp only [mapExternalAgentToAgent, hav, if_true]
      exact jsOrS_of_truthy_left _ _ h
    · intro ha hp
      rw [truthyS_jsOrS, ha, hp] at hav
      simp at hav
  · have hav' : truthyS (jsOrS ext.avatar ext.profile_picture) = false := by
      simpa using hav
    have ha : truthyS ext.avatar = false := by
      rw [truthyS_jsOrS] at hav'
      exact (Bool.or_eq_false_iff.mp hav').1
    have hp : truthyS ext.profile_picture = false := by
      rw [truthyS_jsOrS] at hav'
      exact (Bool.or_eq_false_iff.mp hav').2
    refine ⟨?_, ?_, ?_, ?_, ?_, ?_⟩
    · intro h
      cases hf : findRebs ext.name (normS ext.first_name) (normS ext.last_name) with
      | none => simp only [mapExternalAgentToAgent, hav', Bool.false_eq_true, if_false, hf,
          normS_of_truthy _ h]
      | some rb =>
        simp only [mapExternalAgentToAgent, hav', Bool.false_eq_true, if_false, hf,
          truthyS_normS, h]
        simp [normS_of_truthy _ h]
    · intro h
      cases hf : findRebs ext.name (normS ext.first_name) (normS ext.last_name) with
      | none => simp only [mapExternalAgentToAgent, hav', Bool.false_eq_true, if_false, hf,
          normS_of_truthy _ h]
      | some rb =>
        simp only [mapExternalAgentToAgent, hav', Bool.false_eq_true, if_false, hf,
          truthyS_normS, h]
        simp [normS_of_truthy _ h]
    · intro h
      cases hf : findRebs ext.name (normS ext.first_name) (normS ext.last_name) with
      | none => simp only [mapExternalAgentToAgent, hav', Bool.false_eq_true, if_false, hf,
          normS_of_truthy _ h]
      | some rb =>
        simp only [mapExternalAgentToAgent, hav', Bool.false_eq_true, if_false, hf,
          truthyS_normS, h]
        simp [normS_of_truthy _ h]
    · intro h
      rw [h] at ha
      exact absurd ha (by simp)
    · intro h
      rw [h] at hp
      exact absurd hp (by simp)
    · intro _ _ rb hf
      refine ⟨?_, ?_, ?_, ?_, ?_⟩
      · simp only [mapExternalAgentToAgent, hav', Bool.false_eq_true, if_false, hf]
      · simp only [mapExternalAgentToAgent, hav', Bool.false_eq_true, if_false, hf]
      · intro he hre
        simp only [mapExternalAgentToAgent, hav', Bool.false_eq_true, if_false, hf,
          truthyS_normS, he, hre]
        simp
      · intro he hre
        simp only [mapExternalAgentToAgent, hav', Bool.false_eq_true, if_false, hf,
          truthyS_normS, he, hre]
        simp
      · intro he hre
        simp only [mapExternalAgentToAgent, hav', Bool.false_eq_true, if_false, hf,
          truthyS_normS, he, hre]
        simp

/-- Concrete live participant for the C7 witness: e-mail present, avatar
missing. -/
def extC7 : ExternalAgent :=
  { id := .num 1, name := "Ana Pop", rank := 1, email := some "ana@x.ro" }

/-- Concrete enrichment record for the C7 witness. -/
def rbC7 : RebsAgent :=
  { name := some "Ana Pop", avatar := some "http-avatar", email := some "other@x.ro" }

/-- Lookup used by the C7 witness. -/
def findC7 : String → Option String → Option String → Option RebsAgent :=
  fun _ _ _ => some rbC7

/-- C7, witness: the present live e-mail is kept (not overwritten by the
enrichment record's e-mail) while the missing avatar is filled from the
record. -/
theorem c7_witness :
    (truthyS extC7.email = true ∧ truthyS extC7.avatar = false
      ∧ truthyS extC7.profile_picture = false)
    ∧ (mapExternalAgentToAgent extC7 findC7).email = extC7.email
    ∧ (mapExternalAgentToAgent extC7 findC7).avatar = jsOrS rbC7.avatar rbC7.profile_picture :=
  ⟨⟨by decide, by decide, by decide⟩,
    (c7_enrichment_preserves_live_fields extC7 findC7).1 (by decide),
    ((c7_enrichment_preserves_live_fields extC7 findC7).2.2.2.2.2 (by decide) (by decide)
      rbC7 rfl).1⟩

/-! ### Retry layer -/

theorem fetchWithRetryAux_requests_le (outcomes : Nat → FetchOutcome) :
    ∀ (fuel attempt : Nat), (fetchWithRetryAux outcomes attempt fuel).requests ≤ fuel := by
  intro fuel
  induction fuel with
  | zero => intro attempt; simp [fetchWithRetryAux]
  | succ fuel ih =>
    intro attempt
    unfold fetchWithRetryAux
    cases outcomes attempt with
    | resp r =>
      by_cases hok : r.ok = true
      · simp [hok]
      · simp only [hok, Bool.false_eq_true, if_false]
        by_cases hf : fuel = 0
        · simp [hf]
        · simp only [hf, if_false]
          have := ih (attempt + 1)
          omega
    | thrown e =>
      by_cases hf : fuel = 0
      · simp [hf]
      · simp only [hf, if_false]
        have := ih (attempt + 1)
        omega

theorem fetchWithRetryAux_requests_pos (outcomes : Nat → FetchOutcome)
    (fuel attempt : Nat) (h : 0 < fuel) :
    0 < (fetchWithRetryAux outcomes attempt fuel).requests := by
  cases fuel with
  | zero => omega
  | succ fuel =>
    unfold fetchWithRetryAux
    cases outcomes attempt with
    | resp r =>
      by_cases hok : r.ok = true
      · simp [hok]
      · simp only [hok, Bool.false_eq_true, if_false]
        by_cases hf : fuel = 0
        · simp [hf]
        · simp [hf]
    | thrown e =>
      by_cases hf : fuel = 0
      · simp [hf]
      · simp [hf]

theorem fetchWithRetryAux_delays (outcomes : Nat → FetchOutcome) :
    ∀ (fuel attempt : Nat),
      (fetchWithRetryAux outcomes attempt fuel).delays =
        (List.range ((fetchWithRetryAux outcomes attempt fuel).requests - 1)).map
          (fun i => 2 ^ (attempt + i) * RETRY_BACKOFF_BASE_MS) := by
  intro fuel
  induction fuel with
  | zero => intro attempt; simp [fetchWithRetryAux]
  | succ fuel ih =>
    intro attempt
    unfold fetchWithRetryAux
    have hstep : ∀ t : RetryTrace, 0 < t.requests →
        t.delays = (List.range (t.requests - 1)).map
          (fun i => 2 ^ (attempt + 1 + i) * RETRY_BACKOFF_BASE_MS) →
        (2 ^ attempt * RETRY_BACKOFF_BASE_MS) :: t.delays =
          (List.range (t.requests + 1 - 1)).map
            (fun i => 2 ^ (attempt + i) * RETRY_BACKOFF_BASE_MS) := by
      intro t hpos hdel
      have hr : t.requests + 1 - 1 = (t.requests - 1) + 1 := by omega
      rw [hr, List.range_succ_eq_map, List.map_cons, List.map_map, hdel,
        List.cons_eq_cons]
      constructor
      · show 2 ^ attempt * RETRY_BACKOFF_BASE_MS = 2 ^ (attempt + 0) * RETRY_BACKOFF_BASE_MS
        rw [Nat.add_zero]
      · refine List.map_congr_left ?_
        intro i _
        show 2 ^ (attempt + 1 + i) * RETRY_BACKOFF_BASE_MS =
          2 ^ (attempt + (i + 1)) * RETRY_BACKOFF_BASE_MS
        rw [show attempt + 1 + i = attempt + (i + 1) by omega]
    cases outcomes attempt with
    | resp r =>
      by_cases hok : r.ok = true
      · simp [hok]
      · simp only [hok, Bool.false_eq_true, if_false]
        by_cases hf : fuel = 0
        · simp [hf]
        · simp only [hf, if_false]
          exact hstep _ (fetchWithRetryAux_requests_pos outcomes fuel (attempt + 1) (by omega))
            (ih (attempt + 1))
    | thrown e =>
      by_cases hf : fuel = 0
      · simp [hf]
      · simp only [hf, if_false]
        exact hstep _ (fetchWithRetryAux_requests_pos outcomes fuel (attempt + 1) (by omega))
          (ih (attempt + 1))

/-- Attempt sequence of the C8 scenario: two transport failures followed by
a successful 200 response. -/
def twoFailThenOk : Nat → FetchOutcome :=
  fun n => if n < 2 then .thrown "network error" else .resp { status := 200 }

/-- C8: Given 2 consecutive transport failures followed by a success, the
fetch layer issues exactly 3 requests total and returns the successful
response; between failed attempts it waits an exponentially growing delay
(base delay doubling each attempt: 1000 ms then 2000 ms), and it never
issues more than `RETRY_ATTEMPTS = 3` attempts. -/
theorem c8_retry_two_failures_then_success :
    fetchWithRetry twoFailThenOk RETRY_ATTEMPTS =
      { requests := 3, delays := [1000, 2000], result := .ok { status := 200 } }
    ∧ (∀ outcomes : Nat → FetchOutcome,
        (fetchWithRetry outcomes RETRY_ATTEMPTS).requests ≤ RETRY_ATTEMPTS)
    ∧ (∀ outcomes : Nat → FetchOutcome,
        (fetchWithRetry outcomes RETRY_ATTEMPTS).delays =
          (List.range ((fetchWithRetry outcomes RETRY_ATTEMPTS).requests - 1)).map
            (fun i => 2 ^ i * RETRY_BACKOFF_BASE_MS)) := by
  refine ⟨by decide, ?_, ?_⟩
  · intro outcomes
    exact fetchWithRetryAux_requests_le outcomes RETRY_ATTEMPTS 0
  · intro outcomes
    have h := fetchWithRetryAux_delays outcomes RETRY_ATTEMPTS 0
    simpa using h

/-- C9: When a fetch cycle holds a prior validation token (ETag) and the
retry layer surfaces a "not modified" (304) response, the caller's existing
payload state (agents, stats, lastUpdated — in fact the whole hook state,
the stored ETag included) is left completely unchanged for that cycle, the
display list is untouched, and no rank-change events are computed from
it. -/
theorem c9_not_modified_preserves_state (st : HookState) (prevDisplay : List Agent)
    (rebsAgents : List RebsAgent) (rebsAgentsLoaded : Bool) (now : String)
    (outcomes : Nat → FetchOutcome) (r : HttpResponse) (tok : String)
    (hTok : st.lastETag = some tok)
    (hRes : (fetchWithRetry outcomes RETRY_ATTEMPTS).result = .ok r)
    (h304 : r.status = 304) :
    pollCycle st prevDisplay rebsAgents rebsAgentsLoaded now
      (fetchWithRetry outcomes RETRY_ATTEMPTS).result = (st, prevDisplay, []) := by
  rw [hRes]
  simp [pollCycle, fetchLeaderboardInternalStep, h304]

/-- Hook state of the C9 witness: a cycle that already holds a validation
token and cached data. -/
def stC9 : HookState :=
  { agents := [{ id := .str "a", name := "A", rank := 1 }], stats := none,
    lastUpdated := some "old", error := none, isLoading := false, lastETag := some "W-abc" }

/-- Attempt sequence of the C9/C10 scenario: the server always answers
304. -/
def all304 : Nat → FetchOutcome := fun _ => .resp { status := 304 }

/-- C9, witness: with a concrete prior state and an all-304 server, the
cycle returns the state, display list and events unchanged. -/
theorem c9_witness :
    (stC9.lastETag = some "W-abc"
      ∧ (fetchWithRetry all304 RETRY_ATTEMPTS).result = .ok { status := 304 }
      ∧ ({ status := 304 } : HttpResponse).status = 304)
    ∧ pollCycle stC9 [] [] false "now" (fetchWithRetry all304 RETRY_ATTEMPTS).result =
      (stC9, [], []) :=
  ⟨⟨rfl, by decide, rfl⟩,
    c9_not_modified_preserves_state stC9 [] [] false "now" all304 { status := 304 } "W-abc"
      rfl (by decide) rfl⟩

/-- C10 (implicit): the retry helper classifies any non-2xx response —
including 304 Not Modified — as a failed attempt: if every attempt returns
304, the first two attempts are retried with backoff delays (1000 ms,
2000 ms) and the 304 response is only returned to the caller on the third
(final) attempt — three requests are issued instead of one. -/
theorem c10_retry_treats_304_as_failure :
    fetchWithRetry all304 RETRY_ATTEMPTS =
      { requests := 3, delays := [1000, 2000], result := .ok { status := 304 } }
    ∧ HttpResponse.ok { status := 304 } = false := by
  refine ⟨by decide, by decide⟩
